import Mathlib

/-!
Verification of the pyact actor runtime (fzzzy/python-actors).

This file gives a shallow embedding of the core data model and operations of
`pyact/actor.py` and proves properties about them: the selective-receive
mailbox scan (`Actor._match_patterns`), the call/response dispatch
(`Address.call`), the link-notification broadcast in `Actor.run`, the
`Gather` result collection, `Address.wait` after termination,
`Address.from_json` decoding, `Address` equality, `Actor.rename`, the
`respond*` helpers, and the callable-spawn plumbing.

The module `pyact/shape.py` (the structural matcher `shape.is_shaped`) is
not part of the sources; it is modelled from the specification, section 4.1.
Everything else is translated directly from `pyact/actor.py`.
-/

namespace PyAct

/-- An address denotes either a local actor (by its actor id) or a remote
actor (by URL), mirroring the targets of `Address` and `RemoteAddress`. -/
inductive Addr where
  | loc (id : String)
  | rem (url : String)
deriving DecidableEq, Repr

mutual

/-- JSON-shaped runtime values: the result of decoding a message with
`json.loads(..., object_hook=generate_custom)`. Objects keep insertion
order, like Python dicts. Addresses and binaries appear as first-class
values after decoding. -/
inductive JVal where
  | jnull
  | jbool (b : Bool)
  | jint (n : Int)
  | jstr (s : String)
  | jarr (items : JList)
  | jobj (fields : JFields)
  | jaddr (a : Addr)
  | jbin (data : String)

/-- A sequence of JSON values (elements of a decoded list). -/
inductive JList where
  | nil
  | cons (head : JVal) (tail : JList)

/-- The ordered field list of a decoded object (a Python dict). -/
inductive JFields where
  | fnil
  | fcons (key : String) (val : JVal) (tail : JFields)

end

deriving instance DecidableEq for JVal, JList, JFields
deriving instance Repr for JVal, JList, JFields

mutual

/-- Patterns ("shapes") for selective receive: type-class tokens, concrete
scalar values, and structural mapping / sequence templates. -/
inductive Pattern where
  | pany
  | pstrT
  | pintT
  | pboolT
  | pseqT
  | pmapT
  | paddrT
  | pbinT
  | pval (v : JVal)
  | pobj (fields : PFields)
  | parr (items : PList)

/-- A sequence of patterns (a list-shaped template). -/
inductive PList where
  | pnil
  | pcons (head : Pattern) (tail : PList)

/-- The field list of a mapping-shaped template. -/
inductive PFields where
  | pfnil
  | pfcons (key : String) (pat : Pattern) (tail : PFields)

end

deriving instance DecidableEq for Pattern, PList, PFields
deriving instance Repr for Pattern, PList, PFields

/-- First value bound to key `k` in an object's field list (Python dict
lookup; field lists built by the runtime have distinct keys). -/
def lookupField (k : String) : JFields → Option JVal
  | .fnil => none
  | .fcons k₁ v rest => if k₁ = k then some v else lookupField k rest

mutual

/-- Modelled from the spec: `shape.is_shaped(value, pattern)` from the
missing module `pyact/shape.py`, following specification section 4.1.
Rules in order: a type-class token matches by conformance (`pany` matches
everything); a mapping pattern matches a mapping whose keys are a superset
of the pattern's keys with pointwise matches; a sequence pattern matches a
sequence of equal length pointwise; otherwise match by equality. -/
def is_shaped : JVal → Pattern → Bool
  | _, .pany => true
  | .jstr _, .pstrT => true
  | _, .pstrT => false
  | .jint _, .pintT => true
  | _, .pintT => false
  | .jbool _, .pboolT => true
  | _, .pboolT => false
  | .jarr _, .pseqT => true
  | _, .pseqT => false
  | .jobj _, .pmapT => true
  | _, .pmapT => false
  | .jaddr _, .paddrT => true
  | _, .paddrT => false
  | .jbin _, .pbinT => true
  | _, .pbinT => false
  | v, .pval w => v == w
  | .jobj kvs, .pobj pkvs => shapedFields kvs pkvs
  | _, .pobj _ => false
  | .jarr vs, .parr ps => shapedElems vs ps
  | _, .parr _ => false

/-- Modelled from the spec: mapping-pattern clause of `shape.is_shaped` —
every pattern key must exist in the value with a pointwise match; extra
keys in the value are ignored. -/
def shapedFields (kvs : JFields) : PFields → Bool
  | .pfnil => true
  | .pfcons k p rest =>
    (match lookupField k kvs with
     | some v => is_shaped v p
     | none => false) && shapedFields kvs rest

/-- Modelled from the spec: sequence-pattern clause of `shape.is_shaped` —
equal length and pointwise matches. -/
def shapedElems : JList → PList → Bool
  | .nil, .pnil => true
  | .cons v vs, .pcons p ps => is_shaped v p && shapedElems vs ps
  | _, _ => false

end

/-! ## Mailbox: `Actor._match_patterns` (actor.py lines 504-516)

The mailbox is a Python list of decoded messages; `_match_patterns`
iterates over the messages in insertion order and, for each, over the
patterns in argument order; on the first hit it deletes that message from
the mailbox and returns `(pattern, message)`; when nothing matches it
returns `(None, None)` and leaves the mailbox unchanged. -/

/-- `Actor._match_patterns(patterns)`: result of the scan together with
the mailbox left behind. -/
def matchPatterns (patterns : List Pattern) : List JVal → Option (Pattern × JVal) × List JVal
  | [] => (none, [])
  | m :: rest =>
    match patterns.find? (fun p => is_shaped m p) with
    | some p => (some (p, m), rest)
    | none =>
      let r := matchPatterns patterns rest
      (r.1, m :: r.2)

/-! ## Call protocol: `Address.call` (actor.py lines 281-312) -/

/-- The RSP pattern built inside `Address.call`:
`{'response': message_id, 'message': object}`. -/
def rspPattern (r : String) : Pattern :=
  .pobj (.pfcons "response" (.pval (.jstr r)) (.pfcons "message" .pany .pfnil))

/-- The EXC pattern built inside `Address.call`:
`{'response': message_id, 'exception': object}`. -/
def excPattern (r : String) : Pattern :=
  .pobj (.pfcons "response" (.pval (.jstr r)) (.pfcons "exception" .pany .pfnil))

/-- The INV pattern built inside `Address.call`:
`{'response': message_id, 'invalid_method': str}`. -/
def invPattern (r : String) : Pattern :=
  .pobj (.pfcons "response" (.pval (.jstr r)) (.pfcons "invalid_method" .pstrT .pfnil))

/-- The pattern tuple passed to `receive(RSP, EXC, INV)`, in that order. -/
def callPatterns (r : String) : List Pattern :=
  [rspPattern r, excPattern r, invPattern r]

/-- `response['message']`-style field access on a decoded object; total
stand-in for Python subscripting, used only where a pattern match has
already guaranteed the key is present. -/
def getField (m : JVal) (k : String) : JVal :=
  match m with
  | .jobj kvs => (lookupField k kvs).getD .jnull
  | _ => .jnull

/-- Outcome of `Address.call` as observed by the caller. -/
inductive CallResult where
  | success (v : JVal)
  | remoteAttributeError (method : String)
  | remoteException (payload : JVal)
  | timeoutError
deriving DecidableEq, Repr

/-- The dispatch at the end of `Address.call`: `pattern is INV` raises
`RemoteAttributeError(method)`, `pattern is EXC` raises
`RemoteException(response)`, otherwise `response['message']` is returned.
A `None` receive outcome models the installed `eventlet.Timeout` firing. -/
def callDispatch (method r : String) : Option (Pattern × JVal) → CallResult
  | none => .timeoutError
  | some (p, response) =>
    if p = invPattern r then .remoteAttributeError method
    else if p = excPattern r then .remoteException response
    else .success (getField response "message")

/-- `Address.call` after the request has been cast: run the receive over
the caller's mailbox with patterns RSP, EXC, INV and dispatch on the
match. Returns the caller-visible outcome and the mailbox left behind. -/
def call (r method : String) (mailbox : List JVal) : CallResult × List JVal :=
  let res := matchPatterns (callPatterns r) mailbox
  (callDispatch method r res.1, res.2)

/-! ## Link notifications: `Actor.run` (actor.py lines 614-641) -/

/-- How the actor's behavior ended: normal return with a value, or an
uncaught exception whose formatted traceback is a JSON tree. -/
inductive RunOutcome where
  | ret (v : JVal)
  | exn (formatted : JVal)
deriving DecidableEq, Repr

/-- `{'address': self.address, 'exception': formatted}` as cast by
`Actor.run` to each link on failure. -/
def excNotifMsg (selfA : Addr) (formatted : JVal) : JVal :=
  .jobj (.fcons "address" (.jaddr selfA) (.fcons "exception" formatted .fnil))

/-- `{'address': self.address, 'exit': result}` as cast by `Actor.run`
to each exit link after the behavior has ended. -/
def exitNotifMsg (selfA : Addr) (result : JVal) : JVal :=
  .jobj (.fcons "address" (.jaddr selfA) (.fcons "exit" result .fnil))

/-- The `result` variable at the final loop of `Actor.run`: the return
value on normal return, `None` after an exception. -/
def runResult : RunOutcome → JVal
  | .ret v => v
  | .exn _ => .jnull

/-- True when the behavior raised. -/
def runFailed : RunOutcome → Bool
  | .ret _ => false
  | .exn _ => true

/-- The sequence of casts `Actor.run` performs on termination, in order:
on an exception, `{'address', 'exception'}` to every entry of
`self._links`; in all cases `{'address', 'exit'}` to every entry of
`self._exit_links`. -/
def runCasts (selfA : Addr) (links exitLinks : List Addr) : RunOutcome → List (Addr × JVal)
  | .ret v => exitLinks.map (fun b => (b, exitNotifMsg selfA v))
  | .exn f =>
    links.map (fun b => (b, excNotifMsg selfA f))
      ++ exitLinks.map (fun b => (b, exitNotifMsg selfA .jnull))

/-- A message is exception-shaped when it is an object carrying both an
`'address'` and an `'exception'` key (the link-notification shape). -/
def isExcNotif (m : JVal) : Bool :=
  match m with
  | .jobj kvs => (lookupField "address" kvs).isSome && (lookupField "exception" kvs).isSome
  | _ => false

/-- A message is exit-shaped when it is an object carrying both an
`'address'` and an `'exit'` key. -/
def isExitNotif (m : JVal) : Bool :=
  match m with
  | .jobj kvs => (lookupField "address" kvs).isSome && (lookupField "exit" kvs).isSome
  | _ => false

/-! ## Gather: `Gather.main` (actor.py lines 692-708) and `wait_all`

`Gather.main` spawn-links the children, then loops exactly N times; each
iteration receives one termination message, stores it in the dict
`messages` keyed by `message['address']`, and then — with a single `if`,
not a loop — appends at most one result from the cursor position. -/

/-- Python dict assignment `d[k] = v` on an Addr-keyed dict kept as an
insertion-ordered association list: replace in place, else append. -/
def addrDictSet : List (Addr × JVal) → Addr → JVal → List (Addr × JVal)
  | [], k, v => [(k, v)]
  | (k₁, v₁) :: rest, k, v =>
    if k₁ = k then (k, v) :: rest else (k₁, v₁) :: addrDictSet rest k v

/-- Python `k in d` / `d[k]` on the Addr-keyed dict. -/
def addrDictGet : List (Addr × JVal) → Addr → Option JVal
  | [], _ => none
  | (k₁, v) :: rest, k => if k₁ = k then some v else addrDictGet rest k

/-- `message['address']` of a received termination message; termination
messages produced by `Actor.run` always carry an Address there. -/
def msgAddress (m : JVal) : Addr :=
  match m with
  | .jobj kvs =>
    match lookupField "address" kvs with
    | some (.jaddr a) => a
    | _ => .loc ""
  | _ => .loc ""

/-- The mutable state of the `Gather.main` loop. -/
structure GatherState where
  messages : List (Addr × JVal)
  currentIndex : Nat
  results : List JVal
deriving Repr

/-- One iteration of the `for i in range(len(address_list))` loop of
`Gather.main`, given the termination message received this iteration:
record it under its address, then — `if`, not `while` — flush at most one
result when the cursor's spawn-order address already has an entry. -/
def gatherStep (addressList : List Addr) (st : GatherState) (m : JVal) : GatherState :=
  let msgs := addrDictSet st.messages (msgAddress m) m
  match addressList.get? st.currentIndex with
  | some a =>
    match addrDictGet msgs a with
    | some recorded =>
      { messages := msgs, currentIndex := st.currentIndex + 1,
        results := st.results ++ [recorded] }
    | none => { messages := msgs, currentIndex := st.currentIndex, results := st.results }
  | none => { messages := msgs, currentIndex := st.currentIndex, results := st.results }

/-- `Gather.main` after spawning: fold the loop over the termination
messages in their arrival order (one receive per iteration) and return
the accumulated `results` list, which `wait_all` then hands back. -/
def gatherMain (addressList : List Addr) (arrivals : List JVal) : List JVal :=
  (arrivals.foldl (gatherStep addressList) ⟨[], 0, []⟩).results

/-! ## Waiting: `Address.wait` and `Address._actor` (actor.py 242-249, 324-327) -/

/-- The observable state of one actor as seen through an `Address`: has
the weak reference been collected, is the greenlet dead, and what (if
anything) has been sent to `_exit_event`. After `Actor.run` finishes,
`dead` is true and the exit event holds the outcome. -/
structure ActorState where
  collected : Bool
  dead : Bool
  exitOutcome : Option RunOutcome
deriving DecidableEq, Repr

/-- What one invocation of `Address.wait()` does. -/
inductive WaitResult where
  | value (v : JVal)
  | raised (formatted : JVal)
  | deadActor
  | blocked
deriving DecidableEq, Repr

/-- `Address.wait()`: the `_actor` property first checks
`actor is None or actor.dead` and raises `DeadActor`; only then is
`_exit_event.wait()` reached, which blocks until the event is sent and
then returns the value or re-raises the recorded exception. -/
def waitModel (st : ActorState) : WaitResult :=
  if st.collected || st.dead then .deadActor
  else
    match st.exitOutcome with
    | some (.ret v) => .value v
    | some (.exn f) => .raised f
    | none => .blocked

/-- An actor has terminated once `Actor.run` has returned: the greenlet
is dead and the exit event has been sent. -/
def terminated (st : ActorState) : Prop :=
  st.dead = true ∧ st.exitOutcome.isSome

/-! ## Decoding: `Address.from_json` (actor.py lines 230-234)

`Address.from_json(obj)` checks `obj.keys() == ['_pyact_address']` and, if
so, evaluates `Actor.all_actors[obj['_pyact_address']].address` — an
unconditional registry lookup that raises `KeyError` when the id is not
registered. There is no URL branch. -/

/-- Result of `Address.from_json`: `None` (not an address object, decoding
falls through), an uncaught `KeyError`, or the registered actor's cached
`Address`. -/
inductive DecodeAddrResult where
  | notAddress
  | keyError (key : JVal)
  | address (a : Addr)
deriving DecidableEq, Repr

/-- `Address.from_json`, with the registry `Actor.all_actors` abstracted
to the list of registered actor ids (the address of the actor registered
under id `x` is the local address `Addr.loc x`). -/
def from_json (registry : List String) (obj : JFields) : DecodeAddrResult :=
  match obj with
  | .fcons k v .fnil =>
    if k = "_pyact_address" then
      match v with
      | .jstr x => if x ∈ registry then .address (.loc x) else .keyError (.jstr x)
      | other => .keyError other
    else .notAddress
  | _ => .notAddress

/-! ## Address equality (actor.py lines 218-253 and 336-353)

Neither `Address` nor `RemoteAddress` defines `__eq__` or `__hash__`, so
Python falls back to object identity. Each `Address` object is modelled
with an object identity `oid` alongside the actor or URL it denotes. -/

/-- A Python `Address`/`RemoteAddress` object: object identity plus the
denoted target. -/
structure PyAddress where
  oid : Nat
  target : Addr
deriving DecidableEq, Repr

/-- Default `object.__eq__`: identity comparison. -/
def pyEq (a b : PyAddress) : Bool := a.oid == b.oid

/-- Default `object.__hash__`: derived from the object identity. -/
def pyHash (a : PyAddress) : Nat := a.oid

/-! ## Registry renaming: `Actor.rename` (actor.py lines 496-501)

`rename(name)` runs `del all_actors[self.actor_id]`, sets the id, then
`all_actors[name] = self` with no conflict check of any kind. Actors are
identified by an opaque numeric token. -/

/-- Python `del d[k]` on the string-keyed registry dict. -/
def strDictDel : List (String × Nat) → String → List (String × Nat)
  | [], _ => []
  | (k₁, v) :: rest, k => if k₁ = k then rest else (k₁, v) :: strDictDel rest k

/-- Python `d[k] = v` on the string-keyed registry dict: replace in
place, else append. -/
def strDictSet : List (String × Nat) → String → Nat → List (String × Nat)
  | [], k, v => [(k, v)]
  | (k₁, v₁) :: rest, k, v =>
    if k₁ = k then (k, v) :: rest else (k₁, v₁) :: strDictSet rest k v

/-- Python `d[k]` lookup on the registry dict. -/
def strDictGet : List (String × Nat) → String → Option Nat
  | [], _ => none
  | (k₁, v) :: rest, k => if k₁ = k then some v else strDictGet rest k

/-- `Actor.rename`: delete the old registry entry, re-register under the
new name. Total — the source performs no check and signals no failure. -/
def rename (reg : List (String × Nat)) (oldId newId : String) (selfActor : Nat) :
    List (String × Nat) :=
  strDictSet (strDictDel reg oldId) newId selfActor

/-! ## Respond helpers (actor.py lines 417-420 and 569-585) -/

/-- `CALL_PATTERN = {'call': str, 'method': str, 'address': Address,
'message': object}`. -/
def CALL_PATTERN : Pattern :=
  .pobj (.pfcons "call" .pstrT
    (.pfcons "method" .pstrT
      (.pfcons "address" .paddrT
        (.pfcons "message" .pany .pfnil))))

/-- The exception raised locally by the respond helpers. -/
inductive ActorException where
  | invalidCallMessage
deriving DecidableEq, Repr

/-- `orig_message['address']` of a message that matched CALL_PATTERN. -/
def origAddress (orig : JVal) : Addr :=
  match orig with
  | .jobj kvs =>
    match lookupField "address" kvs with
    | some (.jaddr a) => a
    | _ => .loc ""
  | _ => .loc ""

/-- `Actor.respond(orig_message, response)`: raise `InvalidCallMessage`
unless `orig_message` matches CALL_PATTERN; otherwise cast
`{'response': orig_message['call'], 'message': response}` to
`orig_message['address']`. The returned pair is (target, cast message). -/
def respond (orig response : JVal) : Except ActorException (Addr × JVal) :=
  if is_shaped orig CALL_PATTERN then
    .ok (origAddress orig,
      .jobj (.fcons "response" (getField orig "call") (.fcons "message" response .fnil)))
  else .error .invalidCallMessage

/-- `Actor.respond_invalid_method(orig_message, method)`: as `respond`
but casting `{'response': .., 'invalid_method': method}`. -/
def respond_invalid_method (orig method : JVal) : Except ActorException (Addr × JVal) :=
  if is_shaped orig CALL_PATTERN then
    .ok (origAddress orig,
      .jobj (.fcons "response" (getField orig "call") (.fcons "invalid_method" method .fnil)))
  else .error .invalidCallMessage

/-- `Actor.respond_exception(orig_message, exception)`: as `respond` but
casting `{'response': .., 'exception': exception}`. -/
def respond_exception (orig exception : JVal) : Except ActorException (Addr × JVal) :=
  if is_shaped orig CALL_PATTERN then
    .ok (origAddress orig,
      .jobj (.fcons "response" (getField orig "call") (.fcons "exception" exception .fnil)))
  else .error .invalidCallMessage

/-! ## Spawn plumbing: `spawn` and `Actor.__init__` (actor.py 94-112, 481-490)

`spawn(spawnable, *args, **kw)` wraps a plain callable in `Actor(spawnable)`;
`Actor.__init__` stores `_to_run = lambda *a, **kw: run(self.receive, *a, **kw)`
(or the bound `self.main` for Actor subclasses); `spawn` stores `_args`;
`Actor.run` later invokes `to_run(*args, **kw)`. The receive capability is
identified by the id of the actor whose mailbox it reads. -/

/-- What can be spawned: an Actor subclass (its `main`, which reaches its
own mailbox through `self`) or a plain callable expecting a receive
capability as its first argument. -/
inductive Spawnable where
  | actorType (mainOf : String → List JVal → List (String × JVal) → JVal)
  | callable (f : String → List JVal → List (String × JVal) → JVal)

/-- `Actor.__init__`: the stored `_to_run` — `self.main` for a subclass,
otherwise `lambda *args, **kw: run(self.receive, *args, **kw)`. -/
def initToRun (selfId : String) : Spawnable → List JVal → List (String × JVal) → JVal
  | .actorType mainOf => mainOf selfId
  | .callable f => fun args kw => f selfId args kw

/-- A spawned, not-yet-run actor: its own id, its stored `_to_run`, and
the `_args` captured by `spawn`. -/
structure SpawnedTask where
  selfId : String
  toRun : List JVal → List (String × JVal) → JVal
  args : List JVal
  kwargs : List (String × JVal)

/-- `spawn(spawnable, *args, **kw)` up to the scheduling of `switch`:
construct the actor (with a fresh id) and store the arguments. -/
def spawnTask (sp : Spawnable) (newId : String) (args : List JVal)
    (kw : List (String × JVal)) : SpawnedTask :=
  { selfId := newId, toRun := initToRun newId sp, args := args, kwargs := kw }

/-- The invocation `to_run(*args, **kw)` performed by `Actor.run`. -/
def runBody (t : SpawnedTask) : JVal := t.toRun t.args t.kwargs

/-! # Theorems -/

/-- Helper: a scan over a mailbox in which no message matches any pattern
returns `(None, None)` and leaves the mailbox unchanged. -/
theorem matchPatterns_all_unmatched (patterns : List Pattern) (mb : List JVal)
    (h : ∀ m ∈ mb, ∀ q ∈ patterns, is_shaped m q = false) :
    matchPatterns patterns mb = (none, mb) := by
  induction mb with
  | nil => rfl
  | cons m rest ih =>
    have h₁ : patterns.find? (fun q => is_shaped m q) = none := by
      apply List.find?_eq_none.mpr
      intro q hq
      simp [h m (by simp) q hq]
    have ih₂ := ih (fun m₂ hm₂ q hq => h m₂ (by simp [hm₂]) q hq)
    simp [matchPatterns, h₁, ih₂]

/-- C1: for every mailbox and pattern list, `Actor._match_patterns`
returns the first message in insertion order that matches some pattern —
the tie among patterns broken by argument position (`List.find?` over the
patterns, earlier wins) — removes exactly that message, and leaves every
other message (the non-matching prefix `pre` and the remainder `suf`) in
its original relative order. -/
theorem match_patterns_selective (patterns : List Pattern) (pre suf : List JVal)
    (m : JVal) (p : Pattern)
    (hpre : ∀ m₁ ∈ pre, ∀ q ∈ patterns, is_shaped m₁ q = false)
    (hfind : patterns.find? (fun q => is_shaped m q) = some p) :
    matchPatterns patterns (pre ++ m :: suf) = (some (p, m), pre ++ suf) := by
  induction pre with
  | nil => simp [matchPatterns, hfind]
  | cons m₁ pre ih =>
    have h₁ : patterns.find? (fun q => is_shaped m₁ q) = none := by
      apply List.find?_eq_none.mpr
      intro q hq
      simp [hpre m₁ (by simp) q hq]
    have ih₂ := ih (fun m₂ hm₂ q hq => hpre m₂ (by simp [hm₂]) q hq)
    simp [matchPatterns, h₁, ih₂]

/-- C1 witness: mailbox `[true, "a", 5]` scanned with patterns
`(int, str)`: the boolean matches nothing, the string `"a"` is the first
message matching some pattern (the second pattern), so it is extracted —
even though the later message `5` matches the earlier pattern — and the
rest of the mailbox keeps its order. -/
theorem match_patterns_selective_witness :
    matchPatterns [.pintT, .pstrT] [.jbool true, .jstr "a", .jint 5]
      = (some (.pstrT, .jstr "a"), [.jbool true, .jint 5]) :=
  match_patterns_selective [.pintT, .pstrT] [.jbool true] [.jint 5]
    (.jstr "a") .pstrT (by decide) (by decide)

/-- Helper: the `any` token matches every value. -/
theorem is_shaped_pany (v : JVal) : is_shaped v .pany = true := by
  cases v <;> rfl

/-- Helper: a concrete-value pattern matches by equality. -/
theorem is_shaped_pval (v w : JVal) : is_shaped v (.pval w) = (v == w) := by
  cases v <;> rfl

/-- Helper: a mapping pattern against an object value reduces to the
field scan. -/
theorem is_shaped_pobj (kvs : JFields) (pf : PFields) :
    is_shaped (.jobj kvs) (.pobj pf) = shapedFields kvs pf := rfl

/-- Helper: the `str` token accepts strings. -/
theorem is_shaped_jstr_pstrT (s : String) : is_shaped (.jstr s) .pstrT = true := rfl

/-- The success reply shape `{'response': r, 'message': v}`. -/
def rspReply (r : String) (v : JVal) : JVal :=
  .jobj (.fcons "response" (.jstr r) (.fcons "message" v .fnil))

/-- The exception reply shape `{'response': r, 'exception': e}`. -/
def excReply (r : String) (e : JVal) : JVal :=
  .jobj (.fcons "response" (.jstr r) (.fcons "exception" e .fnil))

/-- The invalid-method reply shape `{'response': r, 'invalid_method': s}`. -/
def invReply (r s : String) : JVal :=
  .jobj (.fcons "response" (.jstr r) (.fcons "invalid_method" (.jstr s) .fnil))

/-- C2: dispatch of `Address.call` on a matched reply. When the matched
reply is the success shape the call returns the reply's `message` field;
when it is the invalid-method shape the call fails with
`RemoteAttributeError` carrying the method name; when it is the exception
shape the call fails with `RemoteException` carrying the matched reply
(whose `exception` field holds the formatted error); and when nothing in
the mailbox matches within the timeout the call fails with the timeout
error. -/
theorem call_reply_dispatch (r method : String) (v e : JVal) (s : String)
    (rest : List JVal)
    (hnom : ∀ m ∈ rest, ∀ q ∈ callPatterns r, is_shaped m q = false) :
    (call r method (rspReply r v :: rest)).1 = .success v
    ∧ (call r method (excReply r e :: rest)).1 = .remoteException (excReply r e)
    ∧ (call r method (invReply r s :: rest)).1 = .remoteAttributeError method
    ∧ (call r method rest).1 = .timeoutError := by
  refine ⟨?_, ?_, ?_, ?_⟩
  · simp [call, matchPatterns, callPatterns, rspPattern, excPattern, invPattern,
      rspReply, shapedFields, lookupField, getField, callDispatch,
      is_shaped_pany, is_shaped_pval, is_shaped_pobj, is_shaped_jstr_pstrT]
  · simp [call, matchPatterns, callPatterns, rspPattern, excPattern, invPattern,
      excReply, shapedFields, lookupField, getField, callDispatch,
      is_shaped_pany, is_shaped_pval, is_shaped_pobj, is_shaped_jstr_pstrT]
  · simp [call, matchPatterns, callPatterns, rspPattern, excPattern, invPattern,
      invReply, shapedFields, lookupField, getField, callDispatch,
      is_shaped_pany, is_shaped_pval, is_shaped_pobj, is_shaped_jstr_pstrT]
  · simp [call, matchPatterns_all_unmatched (callPatterns r) rest hnom, callDispatch]

/-- C2 witness: the four dispatch outcomes at a concrete correlation id,
method name and payloads, the timeout case on an empty mailbox. -/
theorem call_reply_dispatch_witness :
    (call "r1" "echo" [rspReply "r1" (.jint 7)]).1 = .success (.jint 7)
    ∧ (call "r1" "echo" [excReply "r1" (.jstr "boom")]).1
        = .remoteException (excReply "r1" (.jstr "boom"))
    ∧ (call "r1" "echo" [invReply "r1" "echo"]).1 = .remoteAttributeError "echo"
    ∧ (call "r1" "echo" []).1 = .timeoutError :=
  call_reply_dispatch "r1" "echo" (.jint 7) (.jstr "boom") "echo" [] (by simp)

/-- Helper: an exit notification is not exception-shaped. -/
theorem isExcNotif_exitNotifMsg (a : Addr) (v : JVal) :
    isExcNotif (exitNotifMsg a v) = false := by
  simp [isExcNotif, exitNotifMsg, lookupField]

/-- Helper: an exit notification is exit-shaped. -/
theorem isExitNotif_exitNotifMsg (a : Addr) (v : JVal) :
    isExitNotif (exitNotifMsg a v) = true := by
  simp [isExitNotif, exitNotifMsg, lookupField]

/-- Helper: an exception notification is exception-shaped. -/
theorem isExcNotif_excNotifMsg (a : Addr) (f : JVal) :
    isExcNotif (excNotifMsg a f) = true := by
  simp [isExcNotif, excNotifMsg, lookupField]

/-- Helper: an exception notification is not exit-shaped. -/
theorem isExitNotif_excNotifMsg (a : Addr) (f : JVal) :
    isExitNotif (excNotifMsg a f) = false := by
  simp [isExitNotif, excNotifMsg, lookupField]

/-- Helper: counting occurrences of an address in a duplicate-free list. -/
theorem count_nodup (l : List Addr) (b : Addr) (h : l.Nodup) :
    l.countP (fun b₁ => b₁ == b) = if b ∈ l then 1 else 0 := by
  rw [← List.count_eq_countP]
  by_cases hb : b ∈ l
  · simp [hb, List.count_eq_one_of_mem h hb]
  · simp [hb, List.count_eq_zero_of_not_mem hb]

/-- C3: the notifications `Actor.run` casts on termination. For every
address `b`: the number of exception-shaped messages cast to `b` is one
exactly when `b` is a link and the behavior failed, and zero otherwise;
the number of exit-shaped messages cast to `b` is one exactly when `b` is
an exit link; every exit-shaped cast carries
`{'address': a, 'exit': result}` with the return value as result on
normal return and null on failure; and every exception-shaped cast occurs
only on failure and carries `{'address': a, 'exception': formatted}`. -/
theorem run_link_notifications (selfA : Addr) (links exitLinks : List Addr)
    (o : RunOutcome) (b : Addr)
    (hl : links.Nodup) (he : exitLinks.Nodup) :
    (runCasts selfA links exitLinks o).countP (fun c => c.1 == b && isExcNotif c.2)
      = (if b ∈ links ∧ runFailed o = true then 1 else 0)
    ∧ (runCasts selfA links exitLinks o).countP (fun c => c.1 == b && isExitNotif c.2)
      = (if b ∈ exitLinks then 1 else 0)
    ∧ (∀ c ∈ runCasts selfA links exitLinks o, isExitNotif c.2 = true →
        c.2 = exitNotifMsg selfA (runResult o))
    ∧ (∀ c ∈ runCasts selfA links exitLinks o, isExcNotif c.2 = true →
        ∃ f, o = .exn f ∧ c.2 = excNotifMsg selfA f) := by
  cases o with
  | ret v =>
    refine ⟨?_, ?_, ?_, ?_⟩
    · simp [runCasts, List.countP_map, Function.comp_def, isExcNotif_exitNotifMsg, runFailed]
    · simp only [runCasts, List.countP_map, Function.comp_def, isExitNotif_exitNotifMsg,
        Bool.and_true]
      exact count_nodup exitLinks b he
    · intro c hc _
      simp only [runCasts, List.mem_map] at hc
      obtain ⟨b₁, _, rfl⟩ := hc
      simp [runResult]
    · intro c hc hshape
      simp only [runCasts, List.mem_map] at hc
      obtain ⟨b₁, _, rfl⟩ := hc
      simp [isExcNotif_exitNotifMsg] at hshape
  | exn f =>
    refine ⟨?_, ?_, ?_, ?_⟩
    · simp only [runCasts, List.countP_append, List.countP_map, Function.comp_def,
        isExcNotif_excNotifMsg, isExcNotif_exitNotifMsg, Bool.and_true, Bool.and_false,
        List.countP_false, Function.const_apply, Nat.add_zero, runFailed, and_true]
      exact count_nodup links b hl
    · simp only [runCasts, List.countP_append, List.countP_map, Function.comp_def,
        isExitNotif_excNotifMsg, isExitNotif_exitNotifMsg, Bool.and_true, Bool.and_false,
        List.countP_false, Function.const_apply, Nat.zero_add]
      exact count_nodup exitLinks b he
    · intro c hc hshape
      simp only [runCasts, List.mem_append, List.mem_map] at hc
      rcases hc with ⟨b₁, _, rfl⟩ | ⟨b₁, _, rfl⟩
      · simp [isExitNotif_excNotifMsg] at hshape
      · simp [runResult]
    · intro c hc hshape
      simp only [runCasts, List.mem_append, List.mem_map] at hc
      rcases hc with ⟨b₁, _, rfl⟩ | ⟨b₁, _, rfl⟩
      · exact ⟨f, rfl, rfl⟩
      · simp [isExcNotif_exitNotifMsg] at hshape

/-- C3 witness: an actor at address `x` with links `[p, q]` and exit
links `[p]` that fails with formatted error `"boom"`: `p` and `q` each
get exactly one exception message, `p` additionally exactly one exit
message carrying null, and the uninvolved address `z` gets nothing. -/
theorem run_link_notifications_witness :
    (runCasts (.loc "x") [.loc "p", .loc "q"] [.loc "p"] (.exn (.jstr "boom"))).countP
        (fun c => c.1 == Addr.loc "p" && isExcNotif c.2) = 1
    ∧ (runCasts (.loc "x") [.loc "p", .loc "q"] [.loc "p"] (.exn (.jstr "boom"))).countP
        (fun c => c.1 == Addr.loc "q" && isExcNotif c.2) = 1
    ∧ (runCasts (.loc "x") [.loc "p", .loc "q"] [.loc "p"] (.exn (.jstr "boom"))).countP
        (fun c => c.1 == Addr.loc "p" && isExitNotif c.2) = 1
    ∧ (runCasts (.loc "x") [.loc "p", .loc "q"] [.loc "p"] (.exn (.jstr "boom"))).countP
        (fun c => c.1 == Addr.loc "z" && isExcNotif c.2) = 0 := by
  refine ⟨?_, ?_, ?_, ?_⟩
  · have h := run_link_notifications (.loc "x") [.loc "p", .loc "q"] [.loc "p"]
      (.exn (.jstr "boom")) (.loc "p") (by decide) (by decide)
    rw [h.1]
    decide
  · have h := run_link_notifications (.loc "x") [.loc "p", .loc "q"] [.loc "p"]
      (.exn (.jstr "boom")) (.loc "q") (by decide) (by decide)
    rw [h.1]
    decide
  · have h := run_link_notifications (.loc "x") [.loc "p", .loc "q"] [.loc "p"]
      (.exn (.jstr "boom")) (.loc "p") (by decide) (by decide)
    rw [h.2.1]
    decide
  · have h := run_link_notifications (.loc "x") [.loc "p", .loc "q"] [.loc "p"]
      (.exn (.jstr "boom")) (.loc "z") (by decide) (by decide)
    rw [h.1]
    decide

/-- C4: evaluation of `Gather.main` at a concrete out-of-order completion.
With spawn order `[a, b, c]` and termination messages arriving in the
reverse order, the loop — which flushes at most one result per received
message (`if`, not `while`) — returns only the single termination message
of `a` instead of all three in spawn order; when completions arrive in
spawn order (as in the repository's test) all three are returned. -/
theorem gather_out_of_order_drops_results :
    gatherMain [.loc "a", .loc "b", .loc "c"]
      [exitNotifMsg (.loc "c") (.jint 3), exitNotifMsg (.loc "b") (.jint 2),
       exitNotifMsg (.loc "a") (.jint 1)]
      = [exitNotifMsg (.loc "a") (.jint 1)]
    ∧ gatherMain [.loc "a", .loc "b", .loc "c"]
      [exitNotifMsg (.loc "a") (.jint 1), exitNotifMsg (.loc "b") (.jint 2),
       exitNotifMsg (.loc "c") (.jint 3)]
      = [exitNotifMsg (.loc "a") (.jint 1), exitNotifMsg (.loc "b") (.jint 2),
         exitNotifMsg (.loc "c") (.jint 3)] := by
  decide

/-- C5 counterexample: an actor that terminated normally with value 4
(greenlet dead, exit event holding `ret 4`). A `wait()` invoked after the
termination hits the `actor is None or actor.dead` check of the `_actor`
property and raises `DeadActor`; it does not return the value 4 the claim
promises. -/
theorem wait_after_termination_counterexample :
    waitModel ⟨false, true, some (.ret (.jint 4))⟩ = .deadActor
    ∧ waitModel ⟨false, true, some (.ret (.jint 4))⟩ ≠ .value (.jint 4) := by
  decide

/-- C5 amended: every invocation of `wait()` performed after the actor
has terminated raises `DeadActor` — so repeated waits indeed never
disagree, but the common outcome is `DeadActor`, not the actor's return
value or original failure. -/
theorem wait_after_termination_deadActor (st : ActorState) (h : terminated st) :
    waitModel st = .deadActor := by
  obtain ⟨hd, _⟩ := h
  simp [waitModel, hd]

/-- C5 witness: the amended theorem applied to a concrete terminated
actor state (a failure recorded as `"boom"`). -/
theorem wait_after_termination_deadActor_witness :
    waitModel ⟨false, true, some (.exn (.jstr "boom"))⟩ = .deadActor :=
  wait_after_termination_deadActor ⟨false, true, some (.exn (.jstr "boom"))⟩
    ⟨rfl, rfl⟩

/-- C6 counterexample: decoding `{"_pyact_address": url}` for a URL that
is not a registered actor id. `Address.from_json` unconditionally looks
the id up in `Actor.all_actors`, so it raises `KeyError`; no
`RemoteAddress` is constructed. -/
theorem from_json_url_counterexample :
    from_json ["server1"]
        (.fcons "_pyact_address" (.jstr "http://example.com/a1") .fnil)
      = .keyError (.jstr "http://example.com/a1")
    ∧ from_json ["server1"]
        (.fcons "_pyact_address" (.jstr "http://example.com/a1") .fnil)
      ≠ .address (.rem "http://example.com/a1") := by
  decide

/-- C6 amended: decoding `{"_pyact_address": x}` always performs a
registry lookup: when `x` is a registered actor id it yields that actor's
address, and otherwise — URL or not — it raises `KeyError`. There is no
URL branch in `Address.from_json`. -/
theorem from_json_registry_lookup (registry : List String) (x : String) :
    (x ∈ registry →
      from_json registry (.fcons "_pyact_address" (.jstr x) .fnil) = .address (.loc x))
    ∧ (x ∉ registry →
      from_json registry (.fcons "_pyact_address" (.jstr x) .fnil) = .keyError (.jstr x)) := by
  constructor <;> intro h <;> simp [from_json, h]

/-- C6 witness: the amended theorem at a registered id and at an
unregistered URL. -/
theorem from_json_registry_lookup_witness :
    from_json ["a1"] (.fcons "_pyact_address" (.jstr "a1") .fnil) = .address (.loc "a1")
    ∧ from_json ["a1"] (.fcons "_pyact_address" (.jstr "http://h/x") .fnil)
      = .keyError (.jstr "http://h/x") :=
  ⟨(from_json_registry_lookup ["a1"] "a1").1 (by decide),
   (from_json_registry_lookup ["a1"] "http://h/x").2 (by decide)⟩

/-- C7 counterexample: `Address` and `RemoteAddress` define no `__eq__`
or `__hash__`, so comparison falls back to object identity. Two distinct
`Address` objects denoting the same actor id compare unequal (and hash
differently), and likewise two `RemoteAddress` objects built from the
same URL — refuting the claimed id/URL-based equality. -/
theorem address_identity_counterexample :
    pyEq ⟨0, .loc "x"⟩ ⟨1, .loc "x"⟩ = false
    ∧ (⟨0, .loc "x"⟩ : PyAddress).target = (⟨1, .loc "x"⟩ : PyAddress).target
    ∧ pyEq ⟨2, .rem "http://h/u"⟩ ⟨3, .rem "http://h/u"⟩ = false
    ∧ pyHash ⟨0, .loc "x"⟩ ≠ pyHash ⟨1, .loc "x"⟩ := by
  decide

/-- Helper: in an association list with duplicate-free keys, two entries
with the same key are the same entry. -/
theorem assoc_key_inj {β : Type} (l : List (String × β))
    (h : (l.map Prod.fst).Nodup) {k : String} {v w : β}
    (hv : (k, v) ∈ l) (hw : (k, w) ∈ l) : v = w := by
  induction l with
  | nil => cases hv
  | cons kv rest ih =>
    obtain ⟨k₁, v₁⟩ := kv
    simp only [List.map_cons, List.nodup_cons] at h
    rcases List.mem_cons.mp hv with hv1 | hv1 <;>
      rcases List.mem_cons.mp hw with hw1 | hw1
    · rw [Prod.mk.injEq] at hv1 hw1
      rw [hv1.2, hw1.2]
    · exfalso
      rw [Prod.mk.injEq] at hv1
      exact h.1 (hv1.1 ▸ List.mem_map_of_mem Prod.fst hw1)
    · exfalso
      rw [Prod.mk.injEq] at hw1
      exact h.1 (hw1.1 ▸ List.mem_map_of_mem Prod.fst hv1)
    · exact ih h.2 hv1 hw1

/-- C7 amended: `Address` equality is object identity. Two `PyAddress`
values are equal exactly when they are the same object. Because each
local actor caches a single `Address` object (`Actor.address` is a lazy
property), addresses drawn from such a cache — distinct ids mapped to
objects with pairwise-distinct identities — are equal iff they belong to
the same actor id, which is what the `Gather` result map relies on.
Distinct objects with equal targets remain unequal. -/
theorem address_eq_is_identity (a b : PyAddress)
    (cache : List (String × PyAddress))
    (hkeys : (cache.map Prod.fst).Nodup)
    (hoids : ∀ p ∈ cache, ∀ q ∈ cache, p.2.oid = q.2.oid → p.1 = q.1) :
    (pyEq a b = true ↔ a.oid = b.oid)
    ∧ ∀ i ai j aj, (i, ai) ∈ cache → (j, aj) ∈ cache →
        (pyEq ai aj = true ↔ i = j) := by
  constructor
  · simp [pyEq]
  · intro i ai j aj hi hj
    constructor
    · intro he
      exact hoids (i, ai) hi (j, aj) hj (by simpa [pyEq] using he)
    · intro he
      have : ai = aj := assoc_key_inj cache hkeys (he ▸ hi) hj
      simp [pyEq, this]

/-- C7 witness: the amended theorem at a concrete two-actor cache — the
cached addresses of `"a"` compare equal to themselves and unequal to the
cached address of `"b"`. -/
theorem address_eq_is_identity_witness :
    pyEq ⟨0, .loc "a"⟩ ⟨0, .loc "a"⟩ = true
    ∧ pyEq ⟨0, .loc "a"⟩ ⟨1, .loc "b"⟩ = false := by
  have h := address_eq_is_identity ⟨0, .loc "a"⟩ ⟨0, .loc "a"⟩
    [("a", ⟨0, .loc "a"⟩), ("b", ⟨1, .loc "b"⟩)] (by decide) (by decide)
  refine ⟨(h.2 "a" ⟨0, .loc "a"⟩ "a" ⟨0, .loc "a"⟩ (by decide) (by decide)).mpr rfl, ?_⟩
  have h2 := h.2 "a" ⟨0, .loc "a"⟩ "b" ⟨1, .loc "b"⟩ (by decide) (by decide)
  have : ¬(pyEq ⟨0, .loc "a"⟩ ⟨1, .loc "b"⟩ = true) := fun he => absurd (h2.mp he) (by decide)
  exact Bool.eq_false_iff.mpr this

/-- C8 counterexample: with actors 0 and 1 registered as `"a"` and
`"b"`, renaming actor 0 to the already-taken name `"b"` completes with
no failure of any kind and silently replaces actor 1's registration:
the registry becomes `{"b": actor 0}` and actor 1 is evicted. -/
theorem rename_overwrite_counterexample :
    rename [("a", 0), ("b", 1)] "a" "b" 0 = [("b", 0)]
    ∧ strDictGet (rename [("a", 0), ("b", 1)] "a" "b" 0) "b" = some 0 := by
  decide

/-- Helper: a key other than the deleted one is unaffected by `del`. -/
theorem strDictGet_strDictDel_ne (d : List (String × Nat)) (k k₂ : String)
    (h : k₂ ≠ k) : strDictGet (strDictDel d k) k₂ = strDictGet d k₂ := by
  induction d with
  | nil => rfl
  | cons kv rest ih =>
    obtain ⟨k₁, v₁⟩ := kv
    by_cases hk : k₁ = k
    · subst hk
      have hne : ¬(k₁ = k₂) := fun he => h he.symm
      have hdel : strDictDel ((k₁, v₁) :: rest) k₁ = rest := by simp [strDictDel]
      rw [hdel]
      show strDictGet rest k₂ = if k₁ = k₂ then some v₁ else strDictGet rest k₂
      rw [if_neg hne]
    · have hdel : strDictDel ((k₁, v₁) :: rest) k = (k₁, v₁) :: strDictDel rest k := by
        simp [strDictDel, hk]
      rw [hdel]
      show (if k₁ = k₂ then some v₁ else strDictGet (strDictDel rest k) k₂)
        = if k₁ = k₂ then some v₁ else strDictGet rest k₂
      by_cases hk₂ : k₁ = k₂ <;> simp [hk₂, ih]

/-- Helper: after `d[k] = v`, looking up `k` yields `v`. -/
theorem strDictGet_strDictSet_self (d : List (String × Nat)) (k : String) (v : Nat) :
    strDictGet (strDictSet d k v) k = some v := by
  induction d with
  | nil => simp [strDictSet, strDictGet]
  | cons kv rest ih =>
    obtain ⟨k₁, v₁⟩ := kv
    by_cases hk : k₁ = k
    · simp [strDictSet, hk, strDictGet]
    · simp [strDictSet, hk, strDictGet, ih]

/-- Helper: after `d[k] = v`, other keys are unaffected. -/
theorem strDictGet_strDictSet_ne (d : List (String × Nat)) (k k₂ : String) (v : Nat)
    (h : k₂ ≠ k) : strDictGet (strDictSet d k v) k₂ = strDictGet d k₂ := by
  induction d with
  | nil =>
    have hne : ¬(k = k₂) := fun he => h he.symm
    show (if k = k₂ then some v else strDictGet [] k₂) = strDictGet [] k₂
    rw [if_neg hne]
  | cons kv rest ih =>
    obtain ⟨k₁, v₁⟩ := kv
    by_cases hk : k₁ = k
    · subst hk
      have hne : ¬(k₁ = k₂) := fun he => h he.symm
      have hset : strDictSet ((k₁, v₁) :: rest) k₁ v = (k₁, v) :: rest := by
        simp [strDictSet]
      rw [hset]
      show (if k₁ = k₂ then some v else strDictGet rest k₂)
        = if k₁ = k₂ then some v₁ else strDictGet rest k₂
      rw [if_neg hne, if_neg hne]
    · have hset : strDictSet ((k₁, v₁) :: rest) k v = (k₁, v₁) :: strDictSet rest k v := by
        simp [strDictSet, hk]
      rw [hset]
      show (if k₁ = k₂ then some v₁ else strDictGet (strDictSet rest k v) k₂)
        = if k₁ = k₂ then some v₁ else strDictGet rest k₂
      by_cases hk₂ : k₁ = k₂ <;> simp [hk₂, ih]

/-- Helper: a key in the dict after `del` was in the dict before. -/
theorem mem_strDictDel_keys (d : List (String × Nat)) (k x : String)
    (h : x ∈ (strDictDel d k).map Prod.fst) : x ∈ d.map Prod.fst := by
  induction d with
  | nil => exact h
  | cons kv rest ih =>
    obtain ⟨k₁, v₁⟩ := kv
    by_cases hk : k₁ = k
    · simp only [strDictDel, if_pos hk] at h
      simp [h]
    · simp only [strDictDel, if_neg hk, List.map_cons, List.mem_cons] at h ⊢
      rcases h with h | h
      · exact Or.inl h
      · exact Or.inr (ih h)

/-- Helper: `del` preserves duplicate-freedom of the keys. -/
theorem strDictDel_keys_nodup (d : List (String × Nat)) (k : String)
    (h : (d.map Prod.fst).Nodup) : ((strDictDel d k).map Prod.fst).Nodup := by
  induction d with
  | nil => exact h
  | cons kv rest ih =>
    obtain ⟨k₁, v₁⟩ := kv
    simp only [List.map_cons, List.nodup_cons] at h
    by_cases hk : k₁ = k
    · simpa [strDictDel, hk] using h.2
    · simp only [strDictDel, if_neg hk, List.map_cons, List.nodup_cons]
      exact ⟨fun hmem => h.1 (mem_strDictDel_keys rest k k₁ hmem), ih h.2⟩

/-- Helper: a key in the dict after `d[k] = v` was there before or is `k`. -/
theorem mem_strDictSet_keys (d : List (String × Nat)) (k x : String) (v : Nat)
    (h : x ∈ (strDictSet d k v).map Prod.fst) : x ∈ d.map Prod.fst ∨ x = k := by
  induction d with
  | nil =>
    simp only [strDictSet, List.map_cons, List.map_nil, List.mem_singleton] at h
    exact Or.inr h
  | cons kv rest ih =>
    obtain ⟨k₁, v₁⟩ := kv
    by_cases hk : k₁ = k
    · simp only [strDictSet, if_pos hk, List.map_cons, List.mem_cons] at h
      rcases h with h | h
      · exact Or.inr h
      · exact Or.inl (by simp [h])
    · simp only [strDictSet, if_neg hk, List.map_cons, List.mem_cons] at h ⊢
      rcases h with h | h
      · exact Or.inl (Or.inl h)
      · rcases ih h with h₂ | h₂
        · exact Or.inl (Or.inr h₂)
        · exact Or.inr h₂

/-- Helper: dict assignment preserves duplicate-freedom of the keys. -/
theorem strDictSet_keys_nodup (d : List (String × Nat)) (k : String) (v : Nat)
    (h : (d.map Prod.fst).Nodup) : ((strDictSet d k v).map Prod.fst).Nodup := by
  induction d with
  | nil => simp [strDictSet]
  | cons kv rest ih =>
    obtain ⟨k₁, v₁⟩ := kv
    simp only [List.map_cons, List.nodup_cons] at h
    by_cases hk : k₁ = k
    · subst hk
      have hset : strDictSet ((k₁, v₁) :: rest) k₁ v = (k₁, v) :: rest := by
        simp [strDictSet]
      rw [hset]
      simp only [List.map_cons, List.nodup_cons]
      exact ⟨h.1, h.2⟩
    · have hset : strDictSet ((k₁, v₁) :: rest) k v = (k₁, v₁) :: strDictSet rest k v := by
        simp [strDictSet, hk]
      rw [hset]
      simp only [List.map_cons, List.nodup_cons]
      refine ⟨fun hmem => ?_, ih h.2⟩
      rcases mem_strDictSet_keys rest k k₁ v hmem with h₂ | h₂
      · exact h.1 h₂
      · exact hk h₂

/-- C8 amended: `Actor.rename` never fails: it deletes the old entry and
re-registers the actor under the new name, overwriting — and thereby
evicting — any actor previously registered under that name. Registry-key
uniqueness is preserved, the new name maps to the renamed actor, and all
other names are untouched. -/
theorem rename_overwrites (reg : List (String × Nat)) (oldId newId : String)
    (selfActor : Nat) (h : (reg.map Prod.fst).Nodup) :
    ((rename reg oldId newId selfActor).map Prod.fst).Nodup
    ∧ strDictGet (rename reg oldId newId selfActor) newId = some selfActor
    ∧ ∀ k, k ≠ newId → k ≠ oldId →
        strDictGet (rename reg oldId newId selfActor) k = strDictGet reg k := by
  refine ⟨strDictSet_keys_nodup _ _ _ (strDictDel_keys_nodup reg oldId h),
    strDictGet_strDictSet_self _ _ _, fun k hk₁ hk₂ => ?_⟩
  rw [rename, strDictGet_strDictSet_ne _ _ _ _ hk₁, strDictGet_strDictDel_ne _ _ _ hk₂]

/-- C8 witness: the amended theorem at the two-actor registry — after
renaming actor 0 onto the taken name `"b"`, the registry keys are still
duplicate-free, `"b"` maps to actor 0, and an unrelated name `"c"` is
unaffected. -/
theorem rename_overwrites_witness :
    strDictGet (rename [("a", 0), ("b", 1)] "a" "b" 0) "b" = some 0
    ∧ strDictGet (rename [("a", 0), ("b", 1)] "a" "b" 0) "c" = none :=
  have h := rename_overwrites [("a", 0), ("b", 1)] "a" "b" 0 (by decide)
  ⟨h.2.1, (h.2.2 "c" (by decide) (by decide)).trans (by decide)⟩

/-- C10: spawning a plain callable. `spawn` wraps it via
`Actor.__init__`, which stores `lambda *a, **kw: run(self.receive, *a, **kw)`,
and `Actor.run` invokes that thunk on the spawn-time arguments — so the
callable receives the new actor's own receive capability first, followed
by the positional and keyword arguments given at spawn time. -/
theorem spawn_callable_receives_own_receive
    (f : String → List JVal → List (String × JVal) → JVal)
    (newId : String) (args : List JVal) (kw : List (String × JVal)) :
    runBody (spawnTask (.callable f) newId args kw) = f newId args kw
    ∧ (spawnTask (.callable f) newId args kw).selfId = newId :=
  ⟨rfl, rfl⟩

/-- Helper: splitting the field scan of a mapping pattern. -/
theorem shapedFields_cons (kvs : JFields) (k : String) (p : Pattern) (rest : PFields)
    (h : shapedFields kvs (.pfcons k p rest) = true) :
    ∃ v, lookupField k kvs = some v ∧ is_shaped v p = true
      ∧ shapedFields kvs rest = true := by
  simp only [shapedFields, Bool.and_eq_true] at h
  obtain ⟨h₁, h₂⟩ := h
  cases hl : lookupField k kvs with
  | none => rw [hl] at h₁; cases h₁
  | some v => rw [hl] at h₁; exact ⟨v, rfl, h₁, h₂⟩

/-- Helper: only strings satisfy the `str` token. -/
theorem is_shaped_pstrT_elim (v : JVal) (h : is_shaped v .pstrT = true) :
    ∃ s, v = .jstr s := by
  cases v <;> first | exact ⟨_, rfl⟩ | exact Bool.noConfusion h

/-- Helper: only addresses satisfy the `Address` token. -/
theorem is_shaped_paddrT_elim (v : JVal) (h : is_shaped v .paddrT = true) :
    ∃ a, v = .jaddr a := by
  cases v <;> first | exact ⟨_, rfl⟩ | exact Bool.noConfusion h

/-- Helper: only objects satisfy a mapping pattern. -/
theorem is_shaped_pobj_elim (v : JVal) (pf : PFields)
    (h : is_shaped v (.pobj pf) = true) :
    ∃ kvs, v = .jobj kvs ∧ shapedFields kvs pf = true := by
  cases v <;> first | exact ⟨_, rfl, h⟩ | exact Bool.noConfusion h

/-- C9: the three respond helpers raise `InvalidCallMessage` locally
exactly when the original message does not match CALL_PATTERN; when it
does match, each helper casts the corresponding response shape — carrying
the original's `call` id as its `response` field — to the original's
`address`, and raises nothing. -/
theorem respond_helpers_valid (orig p m e : JVal) :
    ((respond orig p).isOk = is_shaped orig CALL_PATTERN
      ∧ (respond_invalid_method orig m).isOk = is_shaped orig CALL_PATTERN
      ∧ (respond_exception orig e).isOk = is_shaped orig CALL_PATTERN)
    ∧ (is_shaped orig CALL_PATTERN = false →
        respond orig p = .error .invalidCallMessage
        ∧ respond_invalid_method orig m = .error .invalidCallMessage
        ∧ respond_exception orig e = .error .invalidCallMessage)
    ∧ (is_shaped orig CALL_PATTERN = true →
        ∃ kvs c a, orig = .jobj kvs
          ∧ lookupField "call" kvs = some (.jstr c)
          ∧ lookupField "address" kvs = some (.jaddr a)
          ∧ respond orig p
              = .ok (a, .jobj (.fcons "response" (.jstr c) (.fcons "message" p .fnil)))
          ∧ respond_invalid_method orig m
              = .ok (a, .jobj (.fcons "response" (.jstr c) (.fcons "invalid_method" m .fnil)))
          ∧ respond_exception orig e
              = .ok (a, .jobj (.fcons "response" (.jstr c) (.fcons "exception" e .fnil)))) := by
  refine ⟨⟨?_, ?_, ?_⟩, fun hf => ?_, fun ht => ?_⟩
  · by_cases hs : is_shaped orig CALL_PATTERN <;>
      simp [respond, hs, Except.isOk, Except.toBool]
  · by_cases hs : is_shaped orig CALL_PATTERN <;>
      simp [respond_invalid_method, hs, Except.isOk, Except.toBool]
  · by_cases hs : is_shaped orig CALL_PATTERN <;>
      simp [respond_exception, hs, Except.isOk, Except.toBool]
  · simp [respond, respond_invalid_method, respond_exception, hf]
  · obtain ⟨kvs, rfl, hflds⟩ := is_shaped_pobj_elim orig _ (by rwa [CALL_PATTERN] at ht)
    obtain ⟨vc, hc, hcs, h1⟩ := shapedFields_cons _ _ _ _ hflds
    obtain ⟨sc, rfl⟩ := is_shaped_pstrT_elim vc hcs
    obtain ⟨vm, hm, hms, h2⟩ := shapedFields_cons _ _ _ _ h1
    obtain ⟨va, ha, has, h3⟩ := shapedFields_cons _ _ _ _ h2
    obtain ⟨aa, rfl⟩ := is_shaped_paddrT_elim va has
    refine ⟨kvs, sc, aa, rfl, hc, ha, ?_, ?_, ?_⟩ <;>
      simp [respond, respond_invalid_method, respond_exception, ht, getField, hc,
        origAddress, ha]

/-- C9 witness: a well-formed call message is answered (no local raise),
and a non-call message makes each helper raise `InvalidCallMessage`. -/
theorem respond_helpers_valid_witness :
    (respond
        (.jobj (.fcons "call" (.jstr "c1")
          (.fcons "method" (.jstr "go")
            (.fcons "address" (.jaddr (.loc "t"))
              (.fcons "message" .jnull .fnil))))) .jnull).isOk = true
    ∧ respond .jnull .jnull = .error .invalidCallMessage := by
  constructor
  · have h := respond_helpers_valid
      (.jobj (.fcons "call" (.jstr "c1")
        (.fcons "method" (.jstr "go")
          (.fcons "address" (.jaddr (.loc "t"))
            (.fcons "message" .jnull .fnil))))) .jnull .jnull .jnull
    rw [h.1.1]
    decide
  · exact (respond_helpers_valid .jnull .jnull .jnull .jnull).2.1 (by decide) |>.1

end PyAct
